import Mathlib

/-!
Shallow embedding of `src/community_organizer.py` (BlackRoad Community
Organizer).  The SQLite database is modelled as three lists of rows plus the
AUTOINCREMENT counters of the three tables; each data-store operation of the
`CommunityOrganizer` class becomes a pure function on this state.  Timestamps
(`datetime.now().isoformat()`) are passed in as an explicit `now : String`
argument.  SQL `TEXT` ordering (BINARY collation, byte-wise) coincides with
lexicographic `String` ordering, so `ORDER BY` is modelled with `mergeSort`
on `≤`.  A failing operation raises an exception in the Python code and the
`with sqlite3.connect(...)` block rolls the transaction back, so the failing
cases leave the state unchanged.
-/

/-- Row of the `members` table / the `Member` dataclass.  `active` is the
SQLite `INTEGER DEFAULT 1` column. -/
structure Member where
  id : Nat
  name : String
  email : String
  role : String
  joined_at : String
  active : Nat
deriving Repr, DecidableEq

/-- Row of the `events` table / the `Event` dataclass.  `organizer_id` is the
nullable `INTEGER REFERENCES members(id)` column. -/
structure Event where
  id : Nat
  title : String
  description : String
  location : String
  event_date : String
  capacity : Int
  organizer_id : Option Nat
  created_at : String
  status : String
deriving Repr, DecidableEq

/-- Row of the `rsvps` table / the `RSVP` dataclass.  `event_id` is an `Int`
because the CLI parses it with `type=int` and the code never validates it
against the `events` table. -/
structure RSVP where
  id : Nat
  event_id : Int
  member_id : Nat
  response : String
  rsvp_at : String
  notes : String
deriving Repr, DecidableEq

/-- The database state: the three tables (rows in rowid order) and the next
AUTOINCREMENT value of each table.  With `AUTOINCREMENT`, SQLite never reuses
an id, even across `INSERT OR REPLACE`. -/
structure DB where
  members : List Member
  events : List Event
  rsvps : List RSVP
  next_member_id : Nat
  next_event_id : Nat
  next_rsvp_id : Nat
deriving Repr, DecidableEq

/-- The freshly initialised database (`_init_db` on a new file): empty tables,
AUTOINCREMENT counters at 1. -/
def initDB : DB := ⟨[], [], [], 1, 1, 1⟩

/-- Typed errors of the data store: `ConstraintViolation` is the
`sqlite3.IntegrityError` raised on a duplicate member email, `NotFound` is the
`ValueError` raised by `rsvp` and carries the missing email. -/
inductive OrgError where
  | ConstraintViolation : OrgError
  | NotFound (email : String) : OrgError
deriving Repr, DecidableEq

/-- `SELECT id FROM members WHERE email=?` followed by `fetchone()`: the first
member row with the given email, if any. -/
def findMember (db : DB) (email : String) : Option Member :=
  db.members.find? (fun m => m.email == email)

/-- `CommunityOrganizer.add_member`: `INSERT INTO members (name,email,role,
joined_at) VALUES (?,?,?,?)`.  The `UNIQUE` constraint on `email` makes the
insert fail when the email is already present; otherwise the row is appended
with the next id and `active` takes its column default 1. -/
def add_member (db : DB) (name email role now : String) :
    Except OrgError (Member × DB) :=
  if db.members.any (fun m => m.email == email) then
    .error .ConstraintViolation
  else
    let m : Member := ⟨db.next_member_id, name, email, role, now, 1⟩
    .ok (m, { db with
      members := db.members ++ [m],
      next_member_id := db.next_member_id + 1 })

/-- `CommunityOrganizer.create_event`.  The organizer lookup is guarded by
`if organizer_email:` — Python truthiness, so `None` and the empty string both
skip the lookup; an email that matches no member silently leaves
`organizer_id` as `None`.  The insert omits `status`, which therefore takes
its column default `'upcoming'`. -/
def create_event (db : DB) (title event_date : String)
    (location : String := "TBD") (description : String := "")
    (capacity : Int := 50) (organizer_email : Option String := none)
    (now : String := "") : Event × DB :=
  let organizer_id : Option Nat :=
    match organizer_email with
    | none => none
    | some e => if e = "" then none else (findMember db e).map (fun m => m.id)
  let ev : Event := ⟨db.next_event_id, title, description, location,
    event_date, capacity, organizer_id, now, "upcoming"⟩
  (ev, { db with
    events := db.events ++ [ev],
    next_event_id := db.next_event_id + 1 })

/-- `CommunityOrganizer.rsvp`: resolves the member email (raising
`ValueError` with the email when absent), then `INSERT OR REPLACE INTO rsvps`.
`OR REPLACE` deletes any row conflicting on `UNIQUE(event_id, member_id)` and
inserts a fresh row with a fresh AUTOINCREMENT id, so the surviving row order
stays rowid-ascending with the new row last. -/
def rsvp (db : DB) (event_id : Int) (member_email : String)
    (response : String := "attending") (notes : String := "")
    (now : String := "") : Except OrgError (RSVP × DB) :=
  match findMember db member_email with
  | none => .error (.NotFound member_email)
  | some m =>
    let r : RSVP := ⟨db.next_rsvp_id, event_id, m.id, response, now, notes⟩
    .ok (r, { db with
      rsvps := (db.rsvps.filter
        (fun x => !(x.event_id == event_id && x.member_id == m.id))) ++ [r],
      next_rsvp_id := db.next_rsvp_id + 1 })

/-- `CommunityOrganizer.list_events`: `SELECT * FROM events [WHERE status=?]
ORDER BY event_date`.  The filter is guarded by `if status:` — Python
truthiness, so `None` and the empty string both select all rows.  `ORDER BY`
on a `TEXT` column is byte-wise, i.e. lexicographic on the string. -/
def list_events (db : DB) (status : Option String := none) : List Event :=
  let rows : List Event :=
    match status with
    | some s => if s = "" then db.events
                else db.events.filter (fun e => e.status == s)
    | none => db.events
  rows.mergeSort (fun a b => a.event_date ≤ b.event_date)

/-- `CommunityOrganizer.list_members`: `SELECT * FROM members WHERE active=1`. -/
def list_members (db : DB) : List Member :=
  db.members.filter (fun m => m.active == 1)

/-- Output row of `event_attendees`: the dict with keys `name`, `email`,
`response`, `rsvp_at`. -/
structure AttendeeRow where
  name : String
  email : String
  response : String
  rsvp_at : String
deriving Repr, DecidableEq

/-- The inner join of one RSVP row with the `members` table: `none` when no
member carries the row's `member_id` (the SQL join then drops the row). -/
def joinMember (db : DB) (r : RSVP) : Option AttendeeRow :=
  (db.members.find? (fun m => m.id == r.member_id)).map
    (fun m => ⟨m.name, m.email, r.response, r.rsvp_at⟩)

/-- `CommunityOrganizer.event_attendees`: `SELECT m.name, m.email, r.response,
r.rsvp_at FROM rsvps r JOIN members m ON m.id=r.member_id WHERE r.event_id=?
ORDER BY r.rsvp_at`.  No filter on `response`. -/
def event_attendees (db : DB) (event_id : Int) : List AttendeeRow :=
  ((db.rsvps.filter (fun r => r.event_id == event_id)).filterMap
    (joinMember db)).mergeSort (fun a b => a.rsvp_at ≤ b.rsvp_at)

/-- The dict returned by `CommunityOrganizer.status` (the three counts plus
the echoed database path). -/
structure StatusReport where
  active_members : Nat
  total_events : Nat
  confirmed_rsvps : Nat
  db_path : String
deriving Repr, DecidableEq

/-- `CommunityOrganizer.status`: `COUNT(*)` of members with `active=1`, of all
events, and of rsvps with `response='attending'`. -/
def status (db : DB) (db_path : String := "") : StatusReport :=
  ⟨(db.members.filter (fun m => m.active == 1)).length,
   db.events.length,
   (db.rsvps.filter (fun r => r.response == "attending")).length,
   db_path⟩

/-- The dict returned by `CommunityOrganizer.export_data`: top-level keys
`members`, `events`, `rsvps`, `exported_at`; the row structures mirror the
dataclass fields. -/
structure ExportDoc where
  members : List Member
  events : List Event
  rsvps : List RSVP
  exported_at : String
deriving Repr, DecidableEq

/-- `CommunityOrganizer.export_data`: `SELECT *` from each of the three
tables, with the current timestamp. -/
def export_data (db : DB) (now : String := "") : ExportDoc :=
  ⟨db.members, db.events, db.rsvps, now⟩

/-- One mutating invocation of the data store (the read-only operations do
not change the state). -/
inductive Op where
  | addMember (name email role now : String) : Op
  | createEvent (title event_date location description : String)
      (capacity : Int) (organizer_email : Option String) (now : String) : Op
  | doRsvp (event_id : Int) (email response notes now : String) : Op
deriving Repr, DecidableEq

/-- State transition of one invocation: when the operation raises, the
transaction is rolled back and the state is unchanged. -/
def applyOp (db : DB) : Op → DB
  | .addMember n e r now =>
    match add_member db n e r now with
    | .ok (_, db') => db'
    | .error _ => db
  | .createEvent t d loc desc cap oe now =>
    (create_event db t d loc desc cap oe now).2
  | .doRsvp E M resp notes now =>
    match rsvp db E M resp notes now with
    | .ok (_, db') => db'
    | .error _ => db

/-- The state after a sequence of invocations starting from a fresh database. -/
def applyOps (ops : List Op) : DB := ops.foldl applyOp initDB

/-- A state is reachable when some sequence of invocations produces it. -/
def Reachable (db : DB) : Prop := ∃ ops : List Op, applyOps ops = db

/-! ### Witness fixtures: small concrete states -/

/-- The member created by `add-member A a@x.com` on a fresh database. -/
def wMem : Member := ⟨1, "A", "a@x.com", "member", "t0", 1⟩

/-- The state after registering `wMem` on a fresh database. -/
def wDB : DB := ⟨[wMem], [], [], 2, 1, 1⟩

/-- The RSVP row created by `rsvp 1 a@x.com` on `wDB`. -/
def wR1 : RSVP := ⟨1, 1, 1, "attending", "t1", ""⟩

/-- The state after recording `wR1` on `wDB`. -/
def wDBr : DB := ⟨[wMem], [], [wR1], 2, 1, 2⟩

/-! ### C2: RSVP for an unknown email -/

/-- C2: recording an RSVP for an email that matches no member fails with
`NotFound` carrying that email, and the state (in particular the `rsvps`
table) is unchanged. -/
theorem rsvp_unknown_member_error (db : DB) (E : Int)
    (M resp notes now : String) (h : findMember db M = none) :
    rsvp db E M resp notes now = Except.error (OrgError.NotFound M)
    ∧ applyOp db (Op.doRsvp E M resp notes now) = db := by
  have h1 : rsvp db E M resp notes now = Except.error (OrgError.NotFound M) := by
    unfold rsvp
    rw [h]
  exact ⟨h1, by simp [applyOp, h1]⟩

/-- C2 witness: on the one-member state `wDB`, an RSVP for `b@x.com` fails
with `NotFound "b@x.com"` and leaves the state unchanged. -/
theorem rsvp_unknown_member_error_witness :
    rsvp wDB 1 "b@x.com" "attending" "" "t1"
      = Except.error (OrgError.NotFound "b@x.com")
    ∧ applyOp wDB (Op.doRsvp 1 "b@x.com" "attending" "" "t1") = wDB :=
  rsvp_unknown_member_error wDB 1 "b@x.com" "attending" "" "t1" (by decide)

/-! ### C3: duplicate member email -/

/-- C3: registering a member whose email already resolves to a member `m0`
fails with `ConstraintViolation`, leaves the state unchanged, and `m0` is
still the record the email resolves to afterwards. -/
theorem add_member_duplicate_email (db : DB) (n e r now : String) (m0 : Member)
    (h : findMember db e = some m0) :
    add_member db n e r now = Except.error OrgError.ConstraintViolation
    ∧ applyOp db (Op.addMember n e r now) = db
    ∧ findMember (applyOp db (Op.addMember n e r now)) e = some m0 := by
  have h' : db.members.find? (fun m => m.email == e) = some m0 := h
  have hp := List.find?_some h'
  have hany : db.members.any (fun m => m.email == e) = true :=
    List.any_eq_true.mpr ⟨m0, List.mem_of_find?_eq_some h', hp⟩
  have h1 : add_member db n e r now = Except.error OrgError.ConstraintViolation := by
    unfold add_member
    rw [hany]
    rfl
  have h2 : applyOp db (Op.addMember n e r now) = db := by
    simp [applyOp, h1]
  exact ⟨h1, h2, by rw [h2]; exact h⟩

/-- C3 witness: on `wDB`, re-registering `a@x.com` fails with
`ConstraintViolation` and `a@x.com` still resolves to the original member. -/
theorem add_member_duplicate_email_witness :
    add_member wDB "B" "a@x.com" "member" "t1"
      = Except.error OrgError.ConstraintViolation
    ∧ applyOp wDB (Op.addMember "B" "a@x.com" "member" "t1") = wDB
    ∧ findMember (applyOp wDB (Op.addMember "B" "a@x.com" "member" "t1")) "a@x.com"
      = some wMem :=
  add_member_duplicate_email wDB "B" "a@x.com" "member" "t1" wMem (by decide)

/-! ### C10: frame conditions of the three mutators -/

/-- C10: each successful mutator touches only its own table: `add_member`
leaves `events` and `rsvps` unchanged, `create_event` leaves `members` and
`rsvps` unchanged, and `rsvp` leaves `members` and `events` unchanged. -/
theorem mutators_frame :
    (∀ (db : DB) (n e r now : String) (x : Member) (db' : DB),
      add_member db n e r now = Except.ok (x, db') →
      db'.events = db.events ∧ db'.rsvps = db.rsvps)
    ∧ (∀ (db : DB) (t d loc desc : String) (cap : Int) (oe : Option String)
        (now : String),
      (create_event db t d loc desc cap oe now).2.members = db.members
      ∧ (create_event db t d loc desc cap oe now).2.rsvps = db.rsvps)
    ∧ (∀ (db : DB) (E : Int) (M resp notes now : String) (x : RSVP) (db' : DB),
      rsvp db E M resp notes now = Except.ok (x, db') →
      db'.members = db.members ∧ db'.events = db.events) := by
  refine ⟨?_, ?_, ?_⟩
  · intro db n e r now x db' h
    unfold add_member at h
    by_cases hc : db.members.any (fun m => m.email == e)
    · simp [hc] at h
    · simp [hc] at h
      rw [← h.2]
      exact ⟨rfl, rfl⟩
  · intro db t d loc desc cap oe now
    exact ⟨rfl, rfl⟩
  · intro db E M resp notes now x db' h
    unfold rsvp at h
    cases hm : findMember db M with
    | none => rw [hm] at h; simp at h
    | some m =>
      rw [hm] at h
      simp at h
      rw [← h.2]
      exact ⟨rfl, rfl⟩

/-- C10 witness: the frame conditions at concrete successful invocations of
each of the three mutators. -/
theorem mutators_frame_witness :
    (wDB.events = initDB.events ∧ wDB.rsvps = initDB.rsvps)
    ∧ ((create_event wDB "T" "2025-06-01" "TBD" "" 50 none "t1").2.members
        = wDB.members
      ∧ (create_event wDB "T" "2025-06-01" "TBD" "" 50 none "t1").2.rsvps
        = wDB.rsvps)
    ∧ (wDBr.members = wDB.members ∧ wDBr.events = wDB.events) :=
  ⟨mutators_frame.1 initDB "A" "a@x.com" "member" "t0" wMem wDB rfl,
   mutators_frame.2.1 wDB "T" "2025-06-01" "TBD" "" 50 none "t1",
   mutators_frame.2.2 wDB 1 "a@x.com" "attending" "" "t1" wR1 wDBr rfl⟩

/-! ### C4: summary statistics -/

/-- C4: on a state with `N` members whose `active` flag is 1, `M` events of
any status and `K` RSVP rows whose response is exactly `"attending"`, `status`
reports exactly those three counts (the fourth dict entry only echoes the
database path). -/
theorem status_counts (db : DB) (p : String) (N M K : Nat)
    (hN : db.members.countP (fun m => m.active = 1) = N)
    (hM : db.events.length = M)
    (hK : db.rsvps.countP (fun r => r.response = "attending") = K) :
    status db p = ⟨N, M, K, p⟩ := by
  subst hN; subst hM; subst hK
  unfold status
  have e1 : (db.members.filter (fun m => m.active == 1)).length
      = db.members.countP (fun m => m.active = 1) := by
    rw [List.countP_eq_length_filter]
    congr 1
  have e2 : (db.rsvps.filter (fun r => r.response == "attending")).length
      = db.rsvps.countP (fun r => r.response = "attending") := by
    rw [List.countP_eq_length_filter]
    congr 1
  rw [e1, e2]

/-- C4 witness: on `wDBr` (one active member, no event, one attending RSVP),
`status` reports the counts 1, 0, 1. -/
theorem status_counts_witness : status wDBr "p" = ⟨1, 0, 1, "p"⟩ :=
  status_counts wDBr "p" 1 0 1 (by decide) rfl (by decide)

/-! ### C8: full export -/

/-- C8: `export_data` returns a document whose `members`, `events` and `rsvps`
components are the three tables in full (no `WHERE` clause: inactive members
and non-attending responses included) and whose `exported_at` is the export
timestamp. -/
theorem export_data_full (db : DB) (now : String) :
    (export_data db now).members = db.members
    ∧ (export_data db now).events = db.events
    ∧ (export_data db now).rsvps = db.rsvps
    ∧ (export_data db now).exported_at = now :=
  ⟨rfl, rfl, rfl, rfl⟩

/-! ### C7: organizer resolution at event creation -/

/-- A member registered with the empty string as email (nothing in
`add_member` forbids it). -/
def cMem : Member := ⟨1, "E", "", "member", "t0", 1⟩

/-- The state after registering `cMem` on a fresh database. -/
def cDB : DB := ⟨[cMem], [], [], 2, 1, 1⟩

/-- C7 counterexample: `cDB` is reachable and holds a member whose email is
`""`; creating an event with `organizer_email` supplied as `""` — which does
match that member's email — nevertheless leaves `organizer_id` unset, because
`if organizer_email:` treats the empty string like `None`. -/
theorem create_event_empty_organizer_cex :
    applyOps [Op.addMember "E" "" "member" "t0"] = cDB
    ∧ findMember cDB "" = some cMem
    ∧ (create_event cDB "T" "2025-06-01" "TBD" "" 50 (some "") "t1").1.organizer_id
      = none :=
  ⟨rfl, by decide, rfl⟩

/-- C7 as amended: if `organizer_email` is supplied, non-empty and resolves to
a member `m`, the created event's `organizer_id` is `some m.id`; if it is
omitted, empty, or resolves to no member, `organizer_id` is `none`; in every
case the event row is appended (no error). -/
theorem create_event_organizer_link (db : DB) (t d loc desc : String)
    (cap : Int) (oe : Option String) (now : String) :
    (∀ e m, oe = some e → e ≠ "" → findMember db e = some m →
      (create_event db t d loc desc cap oe now).1.organizer_id = some m.id)
    ∧ ((oe = none ∨ oe = some ""
        ∨ (∃ e, oe = some e ∧ findMember db e = none)) →
      (create_event db t d loc desc cap oe now).1.organizer_id = none)
    ∧ (create_event db t d loc desc cap oe now).2.events
      = db.events ++ [(create_event db t d loc desc cap oe now).1] := by
  refine ⟨?_, ?_, rfl⟩
  · intro e m h1 h2 h3
    subst h1
    unfold create_event
    simp [h2, h3]
  · intro h
    rcases h with h | h | ⟨e, he, hn⟩
    · subst h; rfl
    · subst h; rfl
    · subst he
      unfold create_event
      by_cases h2 : e = ""
      · simp [h2]
      · simp [h2, hn]

/-- C7 witness: on `wDB`, an organizer email `a@x.com` links the event to
member id 1, and an omitted organizer email leaves `organizer_id` unset. -/
theorem create_event_organizer_link_witness :
    (create_event wDB "T" "2025-06-01" "TBD" "" 50 (some "a@x.com") "t1").1.organizer_id
      = some wMem.id
    ∧ (create_event wDB "T" "2025-06-01" "TBD" "" 50 none "t1").1.organizer_id
      = none :=
  ⟨(create_event_organizer_link wDB "T" "2025-06-01" "TBD" "" 50
      (some "a@x.com") "t1").1 "a@x.com" wMem rfl (by decide) (by decide),
   (create_event_organizer_link wDB "T" "2025-06-01" "TBD" "" 50
      none "t1").2.1 (Or.inl rfl)⟩

/-! ### C5: event listing order and filter -/

/-- Sorting by a string key with `mergeSort` yields a list that is pairwise
ordered by that key (SQL `ORDER BY` on a `TEXT` column). -/
theorem mergeSort_key_sorted {α : Type} (key : α → String) (l : List α) :
    (l.mergeSort (fun a b => key a ≤ key b)).Pairwise
      (fun a b => key a ≤ key b) := by
  have trans : ∀ a b c : α, decide (key a ≤ key b) = true →
      decide (key b ≤ key c) = true → decide (key a ≤ key c) = true := by
    intro a b c hab hbc
    simp only [decide_eq_true_eq] at hab hbc ⊢
    exact le_trans hab hbc
  have total : ∀ a b : α,
      (decide (key a ≤ key b) || decide (key b ≤ key a)) = true := by
    intro a b
    simp only [Bool.or_eq_true, decide_eq_true_eq]
    exact le_total (key a) (key b)
  have h : (l.mergeSort (fun a b => key a ≤ key b)).Pairwise
      (fun a b => decide (key a ≤ key b) = true) :=
    List.sorted_mergeSort trans total l
  exact h.imp (fun hb => of_decide_eq_true hb)

/-- The single event created by `add-event T 2025-06-01` on a fresh database. -/
def evU : Event := ⟨1, "T", "", "TBD", "2025-06-01", 50, none, "t0", "upcoming"⟩

/-- The state after creating `evU` on a fresh database. -/
def eDB : DB := ⟨[], [evU], [], 1, 2, 1⟩

/-- C5 counterexample: `eDB` is reachable and holds one event with status
`"upcoming"`; no event has status `""`, yet `list_events` with the filter `""`
returns that event, because `if status:` treats the empty string like `None`
and skips the `WHERE` clause. -/
theorem list_events_empty_filter_cex :
    applyOps [Op.createEvent "T" "2025-06-01" "TBD" "" 50 none "t0"] = eDB
    ∧ eDB.events.filter (fun e => e.status == "") = []
    ∧ list_events eDB (some "") = [evU]
    ∧ evU.status = "upcoming" := by
  refine ⟨rfl, by decide, ?_, rfl⟩
  unfold list_events
  simp [eDB]

/-- C5 as amended: with no filter, `list_events` returns all events sorted
ascending by the `event_date` string (lexicographically); with a non-empty
status filter it returns exactly the events whose status equals the filter, in
the same order; the empty-string filter behaves like no filter. -/
theorem list_events_order_filter (db : DB) (s : String) (hs : s ≠ "") :
    (list_events db none).Perm db.events
    ∧ (list_events db none).Pairwise (fun a b => a.event_date ≤ b.event_date)
    ∧ (list_events db (some s)).Perm
        (db.events.filter (fun e => e.status == s))
    ∧ (list_events db (some s)).Pairwise
        (fun a b => a.event_date ≤ b.event_date)
    ∧ list_events db (some "") = list_events db none := by
  have hrows : list_events db (some s)
      = (db.events.filter (fun e => e.status == s)).mergeSort
          (fun a b => a.event_date ≤ b.event_date) := by
    unfold list_events
    simp [hs]
  refine ⟨?_, ?_, ?_, ?_, ?_⟩
  · exact List.mergeSort_perm db.events _
  · exact mergeSort_key_sorted Event.event_date db.events
  · rw [hrows]
    exact List.mergeSort_perm _ _
  · rw [hrows]
    exact mergeSort_key_sorted Event.event_date _
  · rfl

/-- Two events with opposite date and status for the C5 witness. -/
def evA : Event := ⟨1, "A", "", "TBD", "2025-07-01", 50, none, "t0", "upcoming"⟩

/-- Second C5 witness event, dated earlier, different status. -/
def evB : Event := ⟨2, "B", "", "TBD", "2025-06-01", 50, none, "t1", "cancelled"⟩

/-- Two-event state for the C5 witness. -/
def eDB2 : DB := ⟨[], [evA, evB], [], 1, 3, 1⟩

/-- C5 witness: the amended listing law at the two-event state `eDB2` with the
non-empty filter `"upcoming"`. -/
theorem list_events_order_filter_witness :
    (list_events eDB2 none).Perm eDB2.events
    ∧ (list_events eDB2 none).Pairwise (fun a b => a.event_date ≤ b.event_date)
    ∧ (list_events eDB2 (some "upcoming")).Perm
        (eDB2.events.filter (fun e => e.status == "upcoming"))
    ∧ (list_events eDB2 (some "upcoming")).Pairwise
        (fun a b => a.event_date ≤ b.event_date)
    ∧ list_events eDB2 (some "") = list_events eDB2 none :=
  list_events_order_filter eDB2 "upcoming" (by decide)

/-! ### Reachability invariants -/

/-- Characterisation of a successful `add_member`: the new row and state. -/
theorem add_member_ok_state (db : DB) (n e r now : String)
    (h : db.members.any (fun m => m.email == e) = false) :
    add_member db n e r now = Except.ok
      (⟨db.next_member_id, n, e, r, now, 1⟩,
       { db with
         members := db.members ++ [⟨db.next_member_id, n, e, r, now, 1⟩],
         next_member_id := db.next_member_id + 1 }) := by
  unfold add_member
  rw [h]
  rfl

/-- Characterisation of a successful `rsvp`: the new row replaces every row of
the same (event, member) pair and is appended with a fresh id. -/
theorem rsvp_ok_state (db : DB) (E : Int) (M resp notes now : String)
    (m : Member) (hm : findMember db M = some m) :
    rsvp db E M resp notes now = Except.ok
      (⟨db.next_rsvp_id, E, m.id, resp, now, notes⟩,
       { db with
         rsvps := (db.rsvps.filter
             (fun x => !(x.event_id == E && x.member_id == m.id)))
           ++ [⟨db.next_rsvp_id, E, m.id, resp, now, notes⟩],
         next_rsvp_id := db.next_rsvp_id + 1 }) := by
  unfold rsvp
  rw [hm]

/-- A failing `rsvp` (unknown email) returns `NotFound` with that email. -/
theorem rsvp_err_state (db : DB) (E : Int) (M resp notes now : String)
    (h : findMember db M = none) :
    rsvp db E M resp notes now = Except.error (OrgError.NotFound M) := by
  unfold rsvp
  rw [h]

/-- A failing `add_member` (duplicate email) returns `ConstraintViolation`. -/
theorem add_member_err_state (db : DB) (n e r now : String)
    (h : db.members.any (fun m => m.email == e) = true) :
    add_member db n e r now = Except.error OrgError.ConstraintViolation := by
  unfold add_member
  rw [if_pos h]

/-- Invariant of every reachable state: all member rows are active (nothing
ever updates a member), no two RSVP rows share an (event, member) pair (the
`UNIQUE` constraint together with `OR REPLACE`), and every RSVP's `member_id`
belongs to a member row (RSVPs are only inserted after the email lookup
succeeds and members are never deleted). -/
def DBInv (db : DB) : Prop :=
  (∀ m ∈ db.members, m.active = 1)
  ∧ db.rsvps.Pairwise
      (fun a b => ¬(a.event_id = b.event_id ∧ a.member_id = b.member_id))
  ∧ (∀ r ∈ db.rsvps, ∃ m ∈ db.members, m.id = r.member_id)

/-- The fresh database satisfies the invariant. -/
theorem inv_initDB : DBInv initDB :=
  ⟨by simp [initDB], by simp [initDB], by simp [initDB]⟩

/-- Each invocation preserves the invariant. -/
theorem inv_applyOp (db : DB) (op : Op) (h : DBInv db) : DBInv (applyOp db op) := by
  obtain ⟨hact, hpw, hmem⟩ := h
  cases op with
  | addMember n e r now =>
    by_cases hc : db.members.any (fun m => m.email == e) = true
    · have hstep : applyOp db (Op.addMember n e r now) = db := by
        show (match add_member db n e r now with
          | Except.ok (_, db') => db'
          | Except.error _ => db) = db
        rw [add_member_err_state db n e r now hc]
      rw [hstep]
      exact ⟨hact, hpw, hmem⟩
    · rw [Bool.not_eq_true] at hc
      have hstep : applyOp db (Op.addMember n e r now)
          = { db with
              members := db.members ++ [⟨db.next_member_id, n, e, r, now, 1⟩],
              next_member_id := db.next_member_id + 1 } := by
        show (match add_member db n e r now with
          | Except.ok (_, db') => db'
          | Except.error _ => db) = _
        rw [add_member_ok_state db n e r now hc]
      rw [hstep]
      refine ⟨?_, hpw, ?_⟩
      · intro m hm
        rcases List.mem_append.mp hm with h1 | h1
        · exact hact m h1
        · rcases List.mem_singleton.mp h1 with rfl
          rfl
      · intro r hr
        obtain ⟨m, hm, hid⟩ := hmem r hr
        exact ⟨m, List.mem_append_left _ hm, hid⟩
  | createEvent t d loc desc cap oe now =>
    exact ⟨hact, hpw, hmem⟩
  | doRsvp E M resp notes now =>
    cases hfm : findMember db M with
    | none =>
      have hstep : applyOp db (Op.doRsvp E M resp notes now) = db := by
        show (match rsvp db E M resp notes now with
          | Except.ok (_, db') => db'
          | Except.error _ => db) = db
        rw [rsvp_err_state db E M resp notes now hfm]
      rw [hstep]
      exact ⟨hact, hpw, hmem⟩
    | some m =>
      have hstep : applyOp db (Op.doRsvp E M resp notes now)
          = { db with
              rsvps := (db.rsvps.filter
                  (fun x => !(x.event_id == E && x.member_id == m.id)))
                ++ [⟨db.next_rsvp_id, E, m.id, resp, now, notes⟩],
              next_rsvp_id := db.next_rsvp_id + 1 } := by
        show (match rsvp db E M resp notes now with
          | Except.ok (_, db') => db'
          | Except.error _ => db) = _
        rw [rsvp_ok_state db E M resp notes now m hfm]
      rw [hstep]
      refine ⟨hact, ?_, ?_⟩
      · rw [List.pairwise_append]
        refine ⟨hpw.filter _, List.pairwise_singleton _ _, ?_⟩
        intro a ha b hb
        rcases List.mem_singleton.mp hb with rfl
        have hkeep := (List.mem_filter.mp ha).2
        intro hcon
        have h1 : a.event_id = E := hcon.1
        have h2 : a.member_id = m.id := hcon.2
        rw [h1, h2] at hkeep
        simp at hkeep
      · intro r hr
        rcases List.mem_append.mp hr with h1 | h1
        · exact hmem r (List.mem_of_mem_filter h1)
        · rcases List.mem_singleton.mp h1 with rfl
          have hm' : m ∈ db.members :=
            List.mem_of_find?_eq_some
              (show db.members.find? (fun x => x.email == M) = some m from hfm)
          exact ⟨m, hm', rfl⟩

/-- The invariant holds along any fold of invocations. -/
theorem inv_foldl (ops : List Op) (db : DB) (h : DBInv db) :
    DBInv (ops.foldl applyOp db) := by
  induction ops generalizing db with
  | nil => exact h
  | cons op rest ih => exact ih (applyOp db op) (inv_applyOp db op h)

/-- Every reachable state satisfies the invariant. -/
theorem inv_reachable (db : DB) (h : Reachable db) : DBInv db := by
  obtain ⟨ops, hops⟩ := h
  rw [← hops]
  exact inv_foldl ops initDB inv_initDB

/-! ### C9: members are always active -/

/-- C9: in every reachable state every member row has `active = 1`
(registration inserts with the column default 1 and nothing updates members),
hence `list_members` returns every member row and the active-member count of
`status` equals the total number of member rows. -/
theorem members_always_active (db : DB) (h : Reachable db) :
    (∀ m ∈ db.members, m.active = 1)
    ∧ list_members db = db.members
    ∧ (status db "").active_members = db.members.length := by
  have hact := (inv_reachable db h).1
  have hfil : db.members.filter (fun m => m.active == 1) = db.members :=
    List.filter_eq_self.mpr (fun m hm => by simp [hact m hm])
  refine ⟨hact, hfil, ?_⟩
  show (db.members.filter (fun m => m.active == 1)).length = db.members.length
  rw [hfil]

/-- C9 witness: the property at the reachable one-member state `wDB`. -/
theorem members_always_active_witness :
    (∀ m ∈ wDB.members, m.active = 1)
    ∧ list_members wDB = wDB.members
    ∧ (status wDB "").active_members = wDB.members.length :=
  members_always_active wDB ⟨[Op.addMember "A" "a@x.com" "member" "t0"], rfl⟩

/-! ### C1: RSVP replace semantics -/

/-- C1: when the email resolves to member `m`, recording two consecutive
RSVPs for the pair (event `E`, email `M`) leaves exactly one RSVP row for the
pair (event, `m.id`), carrying the second call's response, notes and
timestamp; moreover in every reachable state no two RSVP rows share an
(event, member) pair. -/
theorem rsvp_replace_semantics (db : DB) (E : Int)
    (M r1s n1 t1 r2s n2 t2 : String) (m : Member)
    (hm : findMember db M = some m) :
    (∀ x1 db1, rsvp db E M r1s n1 t1 = Except.ok (x1, db1) →
      ∀ x2 db2, rsvp db1 E M r2s n2 t2 = Except.ok (x2, db2) →
      db2.rsvps.filter (fun x => x.event_id == E && x.member_id == m.id) = [x2]
      ∧ x2.response = r2s ∧ x2.notes = n2 ∧ x2.rsvp_at = t2)
    ∧ (∀ s, Reachable s → s.rsvps.Pairwise
        (fun a b => ¬(a.event_id = b.event_id ∧ a.member_id = b.member_id))) := by
  constructor
  · intro x1 db1 h1 x2 db2 h2
    rw [rsvp_ok_state db E M r1s n1 t1 m hm] at h1
    injection h1 with hpair1
    injection hpair1 with hx1 hdb1
    have hm1 : findMember db1 M = some m := by
      rw [← hdb1]
      exact hm
    rw [rsvp_ok_state db1 E M r2s n2 t2 m hm1] at h2
    injection h2 with hpair2
    injection hpair2 with hx2 hdb2
    rw [← hx2, ← hdb2]
    refine ⟨?_, rfl, rfl, rfl⟩
    show ((db1.rsvps.filter
        (fun x : RSVP => !(x.event_id == E && x.member_id == m.id)))
        ++ ([⟨db1.next_rsvp_id, E, m.id, r2s, t2, n2⟩] : List RSVP)).filter
          (fun x : RSVP => x.event_id == E && x.member_id == m.id)
      = ([⟨db1.next_rsvp_id, E, m.id, r2s, t2, n2⟩] : List RSVP)
    rw [List.filter_append]
    have hnil : (db1.rsvps.filter
        (fun x => !(x.event_id == E && x.member_id == m.id))).filter
          (fun x => x.event_id == E && x.member_id == m.id) = [] := by
      apply List.filter_eq_nil_iff.mpr
      intro a ha
      have hk := (List.mem_filter.mp ha).2
      simp only [Bool.not_eq_eq_eq_not, Bool.not_true] at hk
      simp [hk]
    rw [hnil]
    simp
  · intro s hs
    exact (inv_reachable s hs).2.1

/-- The RSVP row written by the second of two RSVPs for the same pair. -/
def wR2 : RSVP := ⟨2, 1, 1, "maybe", "t2", "n"⟩

/-- The state after the two RSVPs: only `wR2` remains. -/
def wDBr2 : DB := ⟨[wMem], [], [wR2], 2, 1, 3⟩

/-- C1 witness: two concrete RSVPs for (event 1, a@x.com) on `wDB` leave the
single row `wR2` with the second response, notes and timestamp; and the
pair-uniqueness invariant at the reachable state `wDB`. -/
theorem rsvp_replace_semantics_witness :
    (wDBr2.rsvps.filter
        (fun x => x.event_id == (1 : Int) && x.member_id == wMem.id) = [wR2]
      ∧ wR2.response = "maybe" ∧ wR2.notes = "n" ∧ wR2.rsvp_at = "t2")
    ∧ wDB.rsvps.Pairwise
        (fun a b => ¬(a.event_id = b.event_id ∧ a.member_id = b.member_id)) :=
  ⟨(rsvp_replace_semantics wDB 1 "a@x.com" "attending" "" "t1" "maybe" "n" "t2"
      wMem rfl).1 wR1 wDBr rfl wR2 wDBr2 rfl,
   (rsvp_replace_semantics wDB 1 "a@x.com" "attending" "" "t1" "maybe" "n" "t2"
      wMem rfl).2 wDB ⟨[Op.addMember "A" "a@x.com" "member" "t0"], rfl⟩⟩

/-! ### C6: attendees listing -/

/-- `filterMap` drops nothing when the function succeeds on every element. -/
theorem length_filterMap_of_isSome {α β : Type} (f : α → Option β)
    (l : List α) (h : ∀ x ∈ l, (f x).isSome) :
    (l.filterMap f).length = l.length := by
  induction l with
  | nil => rfl
  | cons x xs ih =>
    cases hfx : f x with
    | none =>
      have hx := h x (List.mem_cons_self x xs)
      rw [hfx] at hx
      simp at hx
    | some b =>
      rw [List.filterMap_cons, hfx]
      simp only [List.length_cons]
      rw [ih (fun y hy => h y (List.mem_cons_of_mem x hy))]

/-- C6: when every RSVP's member id resolves (true of every reachable state,
by `inv_reachable`), `event_attendees` returns one output row per RSVP row of
the event — no filtering by response — ordered ascending by the RSVP
timestamp, each row carrying the member's name and email next to the RSVP's
response and timestamp. -/
theorem attendees_all_rows (db : DB) (E : Int)
    (hres : ∀ r ∈ db.rsvps, ∃ m ∈ db.members, m.id = r.member_id) :
    (event_attendees db E).Pairwise (fun a b => a.rsvp_at ≤ b.rsvp_at)
    ∧ (event_attendees db E).length
      = (db.rsvps.filter (fun r => r.event_id == E)).length
    ∧ (∀ a ∈ event_attendees db E, ∃ r ∈ db.rsvps, r.event_id = E
        ∧ a.response = r.response ∧ a.rsvp_at = r.rsvp_at
        ∧ ∃ m ∈ db.members, m.id = r.member_id
          ∧ a.name = m.name ∧ a.email = m.email)
    ∧ (∀ r ∈ db.rsvps, r.event_id = E →
        ∃ a ∈ event_attendees db E, a.response = r.response
          ∧ a.rsvp_at = r.rsvp_at) := by
  have hsome : ∀ r ∈ db.rsvps.filter (fun r => r.event_id == E),
      (joinMember db r).isSome := by
    intro r hr
    obtain ⟨m, hm, hid⟩ := hres r (List.mem_of_mem_filter hr)
    unfold joinMember
    rw [Option.isSome_map']
    rw [List.find?_isSome]
    exact ⟨m, hm, by simp [hid]⟩
  refine ⟨?_, ?_, ?_, ?_⟩
  · exact mergeSort_key_sorted AttendeeRow.rsvp_at _
  · show (((db.rsvps.filter (fun r => r.event_id == E)).filterMap
        (joinMember db)).mergeSort
          (fun a b => a.rsvp_at ≤ b.rsvp_at)).length = _
    rw [List.length_mergeSort]
    exact length_filterMap_of_isSome (joinMember db) _ hsome
  · intro a ha
    have ha2 : a ∈ ((db.rsvps.filter (fun r => r.event_id == E)).filterMap
        (joinMember db)).mergeSort (fun a b => a.rsvp_at ≤ b.rsvp_at) := ha
    have ha3 := List.mem_mergeSort.mp ha2
    obtain ⟨r, hrf, hjoin⟩ := List.mem_filterMap.mp ha3
    have hrmem : r ∈ db.rsvps := List.mem_of_mem_filter hrf
    have hrE : r.event_id = E := by
      have hb := (List.mem_filter.mp hrf).2
      simpa using hb
    unfold joinMember at hjoin
    cases hfind : db.members.find? (fun m => m.id == r.member_id) with
    | none =>
      rw [hfind] at hjoin
      simp at hjoin
    | some m =>
      rw [hfind] at hjoin
      simp only [Option.map_some'] at hjoin
      have hmm : m ∈ db.members := List.mem_of_find?_eq_some hfind
      have hmid : m.id = r.member_id := by
        have hb := List.find?_some hfind
        simpa using hb
      have heq := Option.some.inj hjoin
      subst heq
      exact ⟨r, hrmem, hrE, rfl, rfl, m, hmm, hmid, rfl, rfl⟩
  · intro r hr hrE
    have hrf : r ∈ db.rsvps.filter (fun rr => rr.event_id == E) :=
      List.mem_filter.mpr ⟨hr, by simp [hrE]⟩
    have hs := hsome r hrf
    cases hja : joinMember db r with
    | none =>
      rw [hja] at hs
      simp at hs
    | some a =>
      have haf : a ∈ (db.rsvps.filter (fun rr => rr.event_id == E)).filterMap
          (joinMember db) := List.mem_filterMap.mpr ⟨r, hrf, hja⟩
      have hams : a ∈ event_attendees db E := by
        show a ∈ ((db.rsvps.filter (fun rr => rr.event_id == E)).filterMap
          (joinMember db)).mergeSort (fun x y => x.rsvp_at ≤ y.rsvp_at)
        exact List.mem_mergeSort.mpr haf
      unfold joinMember at hja
      cases hfind : db.members.find? (fun m => m.id == r.member_id) with
      | none =>
        rw [hfind] at hja
        simp at hja
      | some m =>
        rw [hfind] at hja
        simp only [Option.map_some'] at hja
        have heq := Option.some.inj hja
        exact ⟨a, hams, by rw [← heq], by rw [← heq]⟩

/-- Second member for the C6 witness. -/
def aM2 : Member := ⟨2, "B", "b@x.com", "member", "t0", 1⟩

/-- Third member for the C6 witness. -/
def aM3 : Member := ⟨3, "C", "c@x.com", "member", "t0", 1⟩

/-- A "maybe" RSVP for the C6 witness. -/
def aR2 : RSVP := ⟨2, 1, 2, "maybe", "t2", ""⟩

/-- A "declined" RSVP for the C6 witness. -/
def aR3 : RSVP := ⟨3, 1, 3, "declined", "t3", ""⟩

/-- Three members with one RSVP each ("attending", "maybe", "declined") on
event 1, for the C6 witness. -/
def aDB : DB := ⟨[wMem, aM2, aM3], [], [wR1, aR2, aR3], 4, 1, 4⟩

/-- C6 witness: the attendee listing law at `aDB`, whose event 1 has an
"attending", a "maybe" and a "declined" RSVP. -/
theorem attendees_all_rows_witness :
    (event_attendees aDB 1).Pairwise (fun a b => a.rsvp_at ≤ b.rsvp_at)
    ∧ (event_attendees aDB 1).length
      = (aDB.rsvps.filter (fun r => r.event_id == (1 : Int))).length
    ∧ (∀ a ∈ event_attendees aDB 1, ∃ r ∈ aDB.rsvps, r.event_id = 1
        ∧ a.response = r.response ∧ a.rsvp_at = r.rsvp_at
        ∧ ∃ m ∈ aDB.members, m.id = r.member_id
          ∧ a.name = m.name ∧ a.email = m.email)
    ∧ (∀ r ∈ aDB.rsvps, r.event_id = 1 →
        ∃ a ∈ event_attendees aDB 1, a.response = r.response
          ∧ a.rsvp_at = r.rsvp_at) :=
  attendees_all_rows aDB 1 (by decide)
